import Mathlib

set_option autoImplicit false

/-!
Verification of the go-kafka-console-consumer core against its source.

The development shallowly embeds the Go sources:

* `pkg/decoders/json.go` (`JSONDecoder`),
* `pkg/decoders/msgpack.go` (`MsgPackDecoder`),
* the Avro decoder (`AvroDecoder.ValidateSchemas`, `AvroDecoder.Decode`,
  `castFields`),
* `pkg/parser/parser.go` (`Parser.Serve`, `printJSON`),
* `cmd/go-kafka-console-consumer/main.go` (`getDecoder`, startup order).

Go `interface{}` values produced by the decoders are modelled by the closed
union `GoValue`; external collaborators (the compiled Avro codec, the
MsgPack parser, `json.MarshalIndent`, the plugin loader, the file system)
are explicit function parameters, so every embedded operation is a pure
function of its inputs.
-/

namespace KafkaConsumer

/-- Model of a Go `interface{}` value as produced by the decoders:
null, booleans, numbers, strings, byte slices, `json.RawMessage`,
`[]interface{}` and `map[string]interface{}`. -/
inductive GoValue where
  | vnull : GoValue
  | vbool (b : Bool) : GoValue
  | vint (n : Int) : GoValue
  | vstr (s : String) : GoValue
  | vbytes (bs : List Nat) : GoValue
  | vraw (bs : List Nat) : GoValue
  | vlist (xs : List GoValue) : GoValue
  | vmap (m : List (String × GoValue)) : GoValue

/-- A `map[string]interface{}` record, the shape decoded Avro messages take. -/
abbrev GoMap := List (String × GoValue)

mutual

/-- The per-value action of the Avro decoder's `castFields` walk: a
`map[string]interface{}` value recurses into `castFields`, a
`[]interface{}` value has its elements walked, anything else is left
untouched (the `switch value.(type)` in avro.go). -/
def castValue : GoValue → GoValue
  | GoValue.vmap m => GoValue.vmap (castFields m)
  | GoValue.vlist xs => GoValue.vlist (castElems xs)
  | v => v

/-- `castFields` from avro.go: walk every value of the decoded record. -/
def castFields : GoMap → GoMap
  | [] => []
  | (k, v) :: rest => (k, castValue v) :: castFields rest

/-- The inner `for _, element := range elements` loop of `castFields`:
elements that are `map[string]interface{}` recurse into `castFields`,
all other elements are left as they are. -/
def castElems : List GoValue → List GoValue
  | [] => []
  | GoValue.vmap m :: rest => GoValue.vmap (castFields m) :: castElems rest
  | e :: rest => e :: castElems rest

end

mutual

theorem castValue_id : ∀ v : GoValue, castValue v = v
  | GoValue.vnull => rfl
  | GoValue.vbool _ => rfl
  | GoValue.vint _ => rfl
  | GoValue.vstr _ => rfl
  | GoValue.vbytes _ => rfl
  | GoValue.vraw _ => rfl
  | GoValue.vmap m => by rw [castValue, castFields_id m]
  | GoValue.vlist xs => by rw [castValue, castElems_id xs]

theorem castFields_id : ∀ m : GoMap, castFields m = m
  | [] => rfl
  | (k, v) :: rest => by rw [castFields, castValue_id v, castFields_id rest]

theorem castElems_id : ∀ xs : List GoValue, castElems xs = xs
  | [] => rfl
  | GoValue.vmap m :: rest => by rw [castElems, castFields_id m, castElems_id rest]
  | GoValue.vnull :: rest => by simp [castElems, castElems_id rest]
  | GoValue.vbool _ :: rest => by simp [castElems, castElems_id rest]
  | GoValue.vint _ :: rest => by simp [castElems, castElems_id rest]
  | GoValue.vstr _ :: rest => by simp [castElems, castElems_id rest]
  | GoValue.vbytes _ :: rest => by simp [castElems, castElems_id rest]
  | GoValue.vraw _ :: rest => by simp [castElems, castElems_id rest]
  | GoValue.vlist _ :: rest => by simp [castElems, castElems_id rest]

end

/-! ## JSON decoder (`pkg/decoders/json.go`) -/

/-- Message of the error returned by `JSONDecoder.Decode` on an empty payload. -/
def jsonEmptyErr : String := "Invalid JSON, length < 1"

/-- The single info line `JSONDecoder.Decode` always emits. -/
def jsonDecodeLogLine : String := "Decoding JSON message..."

/-- `JSONDecoder.ValidateSchemas`: always returns `nil` (no schema concept). -/
def JSONDecoder.ValidateSchemas (_schemas : String) : Option String := none

/-- `JSONDecoder.Decode`: logs one info line, fails when `len(msg) < 1`,
otherwise wraps the bytes verbatim as `json.RawMessage`. The first
component is the log output, the second the `(interface{}, error)` result. -/
def JSONDecoder.Decode (msg : List Nat) : List String × Except String GoValue :=
  ([jsonDecodeLogLine],
    if msg.length < 1 then Except.error jsonEmptyErr
    else Except.ok (GoValue.vraw msg))

/-! ## MsgPack decoder (`pkg/decoders/msgpack.go`) -/

/-- `MsgPackDecoder.ValidateSchemas`: always returns `nil`. -/
def MsgPackDecoder.ValidateSchemas (_schemas : String) : Option String := none

/-- `MsgPackDecoder.Decode`, parameterised over the external
`msgpack.Unmarshal` collaborator: parse the payload into a
`map[string]interface{}`, surfacing the parser error on failure. -/
def MsgPackDecoder.Decode (unmarshal : List Nat → Except String GoMap)
    (msg : List Nat) : Except String GoValue :=
  match unmarshal msg with
  | Except.error e => Except.error e
  | Except.ok decoded => Except.ok (GoValue.vmap decoded)

/-! ## Avro decoder (avro.go) -/

/-- `ErrInvalidSchema` from avro.go. -/
def ErrInvalidSchema : String := "invalid schema, schemas must be .avsc files"

/-- `ErrNoCodec` from avro.go. -/
def ErrNoCodec : String := "could not find codec. Was ValidateSchemas called yet?"

/-- `ErrAssertingType` from avro.go. -/
def ErrAssertingType : String := "could not decode message, type assertion failed"

/-- `errors.Wrapf`: the wrapped message is prefixed to the cause. -/
def wrapErr (wrapper cause : String) : String := wrapper ++ ": " ++ cause

/-- Go `strings.HasSuffix`, evaluated over the characters of the strings. -/
def goHasSuffix (s suffix : String) : Bool := suffix.data.isSuffixOf s.data

/-- A compiled Avro codec, abstracted to its `NativeFromBinary` operation
(the external goavro collaborator). -/
abbrev Codec := List Nat → Except String GoValue

/-- The optional field-converter capability: `ConvertFields` mutates the
decoded record in place, modelled as returning the updated record. -/
abbrev ConverterFn := GoMap → Except String GoMap

/-- The `AvroDecoder` struct: an optional converter and the codec built by
`ValidateSchemas` (`nil` before a successful validation). -/
structure AvroDecoder where
  Converter : Option ConverterFn
  codec : Option Codec

/-- `AvroDecoder.ValidateSchemas`, parameterised over the file system
(`ioutil.ReadFile`) and the codec compiler (`goavro.NewCodec`). Returns the
updated decoder and the `error` result. On a codec-compilation error the
multiple assignment `a.codec, err = goavro.NewCodec(...)` leaves `a.codec`
nil, which the model mirrors. -/
def AvroDecoder.ValidateSchemas (readFile : String → Except String String)
    (newCodec : String → Except String Codec)
    (a : AvroDecoder) (schemas : String) : AvroDecoder × Option String :=
  if ¬ goHasSuffix schemas ".avsc" then
    (a, some ErrInvalidSchema)
  else
    match readFile schemas with
    | Except.error e =>
        (a, some (wrapErr ("error reading schema " ++ schemas) e))
    | Except.ok schemaBytes =>
        match newCodec schemaBytes with
        | Except.error e =>
            ({ a with codec := none },
              some (wrapErr ("error creating codec for schema " ++ schemas) e))
        | Except.ok c => ({ a with codec := some c }, none)

/-- `AvroDecoder.Decode`: fail with `ErrNoCodec` when no codec was built,
binary-decode via the codec, require a `map[string]interface{}` at top
level (`ErrAssertingType` otherwise), run the `castFields` walk, then the
optional converter. -/
def AvroDecoder.Decode (a : AvroDecoder) (msg : List Nat) : Except String GoValue :=
  match a.codec with
  | none => Except.error ErrNoCodec
  | some codec =>
    match codec msg with
    | Except.error e => Except.error (wrapErr "error decoding message" e)
    | Except.ok native =>
      match native with
      | GoValue.vmap casted =>
        let casted := castFields casted
        match a.Converter with
        | none => Except.ok (GoValue.vmap casted)
        | some conv =>
          match conv casted with
          | Except.error e => Except.error e
          | Except.ok converted => Except.ok (GoValue.vmap converted)
      | _ => Except.error ErrAssertingType

/-- Claim C4: `JSONDecoder.Decode` fails exactly on length-zero input, with
the empty-payload error, and on any non-empty input returns the bytes
verbatim as a raw JSON value; `ValidateSchemas` is a no-op returning `nil`,
and `Decode` reads no decoder state, so validation cannot affect it. -/
theorem json_decode_empty_iff (msg : List Nat) :
    (∀ s : String, JSONDecoder.ValidateSchemas s = none)
    ∧ ((JSONDecoder.Decode msg).2 = Except.error jsonEmptyErr ↔ msg.length = 0)
    ∧ (msg.length ≠ 0 → (JSONDecoder.Decode msg).2 = Except.ok (GoValue.vraw msg)) := by
  refine ⟨fun _ => rfl, ?_, ?_⟩
  · constructor
    · intro h
      by_contra hlen
      have hpos : ¬ msg.length < 1 := by omega
      simp [JSONDecoder.Decode, hpos] at h
    · intro h
      simp [JSONDecoder.Decode, h]
  · intro h
    have hpos : ¬ msg.length < 1 := by omega
    simp [JSONDecoder.Decode, hpos]

/-- Witness for `json_decode_empty_iff` at the concrete payloads `[]` and
`[123, 125]` (the bytes of "{}"). -/
theorem json_decode_empty_iff_witness :
    (JSONDecoder.Decode []).2 = Except.error jsonEmptyErr
    ∧ (JSONDecoder.Decode [123, 125]).2 = Except.ok (GoValue.vraw [123, 125]) := by
  refine ⟨((json_decode_empty_iff []).2.1).2 rfl, ?_⟩
  exact (json_decode_empty_iff [123, 125]).2.2 (by decide)

/-- Claim C5: with no codec built (`codec = nil`, i.e. `ValidateSchemas`
has not successfully run), `AvroDecoder.Decode` returns the no-codec error
on every payload, never a decoded value. -/
theorem avro_decode_no_codec (conv : Option ConverterFn) (msg : List Nat) :
    AvroDecoder.Decode { Converter := conv, codec := none } msg
      = Except.error ErrNoCodec := rfl

/-- Claim C6: validating a schema path that does not end in `.avsc`
returns the invalid-schema error and leaves the decoder unchanged, for
every file system (so no file read can have happened); when the decoder
had no codec, a subsequent `Decode` still fails with the no-codec error. -/
theorem avro_validate_bad_extension
    (readFile : String → Except String String)
    (newCodec : String → Except String Codec)
    (a : AvroDecoder) (schemas : String)
    (h : ¬ goHasSuffix schemas ".avsc") :
    AvroDecoder.ValidateSchemas readFile newCodec a schemas = (a, some ErrInvalidSchema)
    ∧ (a.codec = none → ∀ msg : List Nat,
        ((AvroDecoder.ValidateSchemas readFile newCodec a schemas).1).Decode msg
          = Except.error ErrNoCodec) := by
  have hval : AvroDecoder.ValidateSchemas readFile newCodec a schemas
      = (a, some ErrInvalidSchema) := by
    simp [AvroDecoder.ValidateSchemas, h]
  refine ⟨hval, ?_⟩
  intro hcodec msg
  rw [hval]
  cases a with
  | mk conv codec =>
    simp only at hcodec
    subst hcodec
    rfl

/-- Witness for `avro_validate_bad_extension` at the concrete path
`"test.json"` on a fresh decoder, with an arbitrary file system. -/
theorem avro_validate_bad_extension_witness :
    AvroDecoder.ValidateSchemas (fun _ => Except.error "io")
        (fun _ => Except.error "bad") ⟨none, none⟩ "test.json"
      = (⟨none, none⟩, some ErrInvalidSchema)
    ∧ ((AvroDecoder.ValidateSchemas (fun _ => Except.error "io")
        (fun _ => Except.error "bad") ⟨none, none⟩ "test.json").1).Decode [0, 1]
      = Except.error ErrNoCodec := by
  have h := avro_validate_bad_extension (fun _ => Except.error "io")
    (fun _ => Except.error "bad") ⟨none, none⟩ "test.json" (by decide)
  exact ⟨h.1, h.2 rfl [0, 1]⟩

/-- Claim C7: after a successful validation (a codec is installed) and
with no converter attached, a payload whose binary decoding yields a
top-level mapping decodes to that mapping passed through the recursive
`castFields` normalization walk (which is the identity on the value
model, so the mapping itself is returned and no sequence element that is
not a mapping can make the walk fail); a non-mapping top-level value
yields the type-assertion error. -/
theorem avro_decode_success_path (codec : Codec) (msg : List Nat) :
    (∀ m : GoMap, codec msg = Except.ok (GoValue.vmap m) →
        AvroDecoder.Decode ⟨none, some codec⟩ msg
            = Except.ok (GoValue.vmap (castFields m))
        ∧ castFields m = m)
    ∧ (∀ v : GoValue, codec msg = Except.ok v → (∀ m : GoMap, v ≠ GoValue.vmap m) →
        AvroDecoder.Decode ⟨none, some codec⟩ msg = Except.error ErrAssertingType) := by
  constructor
  · intro m hm
    refine ⟨?_, castFields_id m⟩
    simp [AvroDecoder.Decode, hm]
  · intro v hv hne
    cases v with
    | vmap m => exact absurd rfl (hne m)
    | vnull => simp [AvroDecoder.Decode, hv]
    | vbool b => simp [AvroDecoder.Decode, hv]
    | vint n => simp [AvroDecoder.Decode, hv]
    | vstr s => simp [AvroDecoder.Decode, hv]
    | vbytes bs => simp [AvroDecoder.Decode, hv]
    | vraw bs => simp [AvroDecoder.Decode, hv]
    | vlist xs => simp [AvroDecoder.Decode, hv]

/-- A concrete codec result for the `avro_decode_success_path` witness: a
mapping holding a sequence with a non-mapping element and a nested
mapping. -/
def avroWitnessMap : GoMap :=
  [("a", GoValue.vlist [GoValue.vint 1, GoValue.vmap [("b", GoValue.vnull)]])]

/-- Witness for `avro_decode_success_path`: decoding with a codec that
returns `avroWitnessMap` yields exactly that mapping, and a codec
returning a non-mapping yields the type-assertion error. -/
theorem avro_decode_success_path_witness :
    AvroDecoder.Decode ⟨none, some fun _ => Except.ok (GoValue.vmap avroWitnessMap)⟩ [7]
      = Except.ok (GoValue.vmap avroWitnessMap)
    ∧ AvroDecoder.Decode ⟨none, some fun _ => Except.ok (GoValue.vint 3)⟩ [7]
      = Except.error ErrAssertingType := by
  constructor
  · have h := (avro_decode_success_path
      (fun _ => Except.ok (GoValue.vmap avroWitnessMap)) [7]).1 avroWitnessMap rfl
    rw [h.1, h.2]
  · exact (avro_decode_success_path (fun _ => Except.ok (GoValue.vint 3)) [7]).2
      (GoValue.vint 3) rfl (fun m h => by cases h)

/-- Claim C9: every decoder variant decodes deterministically with
respect to its validated state: two runs on the same payload agree, and
two Avro decoders with the same codec and converter state agree on every
payload (JSON and MsgPack decoders carry no decode-relevant state at
all). -/
theorem decoder_determinism :
    (∀ msg : List Nat, JSONDecoder.Decode msg = JSONDecoder.Decode msg)
    ∧ (∀ (unmarshal : List Nat → Except String GoMap) (msg : List Nat),
        MsgPackDecoder.Decode unmarshal msg = MsgPackDecoder.Decode unmarshal msg)
    ∧ (∀ (a b : AvroDecoder) (msg : List Nat),
        a.codec = b.codec → a.Converter = b.Converter →
        AvroDecoder.Decode a msg = AvroDecoder.Decode b msg) := by
  refine ⟨fun _ => rfl, fun _ _ => rfl, ?_⟩
  intro a b msg hc hconv
  cases a with
  | mk aConv aCodec =>
    cases b with
    | mk bConv bCodec =>
      simp only at hc hconv
      subst hc
      subst hconv
      rfl

/-- Witness for `decoder_determinism` on two structurally equal fresh
Avro decoders and the empty payload. -/
theorem decoder_determinism_witness :
    AvroDecoder.Decode ⟨none, none⟩ [] = AvroDecoder.Decode ⟨none, none⟩ [] :=
  decoder_determinism.2.2 ⟨none, none⟩ ⟨none, none⟩ [] rfl rfl

/-! ## Dispatch loop (`pkg/parser/parser.go`, `Parser.Serve`) -/

/-- Severity of a logrus log call used by the loop. -/
inductive Level where
  | info : Level
  | warning : Level
  | error : Level
  deriving DecidableEq

/-- One emitted log line: severity and formatted message. -/
abbrev LogLine := Level × String

/-- A sarama record header (`Key`, `Value` byte slices). -/
structure RecordHeader where
  key : List Nat
  value : List Nat
  deriving DecidableEq

/-- A sarama `ConsumerMessage` as the loop reads it: offset, the headers
slice (whose entries are pointers and may be nil), and the value bytes. -/
structure ConsumerMessage where
  offset : Int
  headers : List (Option RecordHeader)
  value : List Nat
  deriving DecidableEq

/-- One selection outcome of the loop's `select`. A `none` payload on the
three consumer-fed sources models a receive from a closed channel
(`more = false`); `shutdown` is a value received on the `done` channel. -/
inductive Event where
  | message (m : Option ConsumerMessage) : Event
  | errorEv (e : Option String) : Event
  | notification (n : Option String) : Event
  | shutdown : Event
  deriving DecidableEq

/-- The observable state of one `Serve` goroutine: the log lines emitted
so far and whether the loop has returned. -/
structure LoopState where
  logs : List LogLine
  stopped : Bool
  deriving DecidableEq

/-- Go `string(bytes)` conversion, abstracted to a character per byte. -/
def byteStr (bs : List Nat) : String := String.mk (bs.map Char.ofNat)

/-- The log line for one non-nil header: `"\t%s: %s"` with key and value. -/
def headerLine (h : RecordHeader) : LogLine :=
  (Level.info, "\t" ++ byteStr h.key ++ ": " ++ byteStr h.value)

/-- The `for _, header := range msg.Headers` loop: every non-nil header
produces one info line, a nil entry is skipped without being
dereferenced. -/
def headerLines : List (Option RecordHeader) → List LogLine
  | [] => []
  | none :: rest => headerLines rest
  | some h :: rest => headerLine h :: headerLines rest

/-- `Parser.printJSON`, parameterised over `json.MarshalIndent`: a
marshalling failure is logged as its own error line, success is logged as
the indented message. -/
def printJSON (marshalIndent : GoValue → Except String String)
    (data : GoValue) : List LogLine :=
  match marshalIndent data with
  | Except.error e => [(Level.error, "Could not process message: " ++ e)]
  | Except.ok s => [(Level.info, "Message:\n" ++ s)]

/-- The offset and header lines logged for a message before decoding. -/
def messagePrelude (msg : ConsumerMessage) : List LogLine :=
  (Level.info, "Offset: " ++ toString msg.offset)
    :: (Level.info, "Headers:")
    :: headerLines msg.headers

/-- The body of one iteration of the `select` loop in `Parser.Serve`,
parameterised over the configured decoder's `Decode` and over
`json.MarshalIndent`. Closed-channel receives (`more = false`) do
nothing; a message is logged, decoded and printed (the decode error is
logged instead of printing on failure); consumer errors and rebalance
notifications are logged; a shutdown value makes the goroutine return
(the summary log call is commented out in the source, so no line is
emitted). -/
def handleEvent (decode : List Nat → Except String GoValue)
    (marshalIndent : GoValue → Except String String)
    (st : LoopState) : Event → LoopState
  | Event.message none => st
  | Event.message (some msg) =>
    match decode msg.value with
    | Except.error e =>
        { st with logs := st.logs ++ messagePrelude msg
            ++ [(Level.error, "Error decoding message: " ++ e)] }
    | Except.ok data =>
        { st with logs := st.logs ++ messagePrelude msg
            ++ printJSON marshalIndent data }
  | Event.errorEv none => st
  | Event.errorEv (some e) =>
    { st with logs := st.logs ++ [(Level.error, "Error: " ++ e)] }
  | Event.notification none => st
  | Event.notification (some n) =>
    { st with logs := st.logs ++ [(Level.warning, "Rebalanced: " ++ n)] }
  | Event.shutdown => { st with stopped := true }

/-- Run the `Serve` loop over a finite sequence of selection outcomes:
each event is handled to completion, and the loop returns (processing
nothing further) as soon as the shutdown event has been handled. -/
def runLoop (decode : List Nat → Except String GoValue)
    (marshalIndent : GoValue → Except String String) :
    LoopState → List Event → LoopState
  | st, [] => st
  | st, ev :: rest =>
    let st2 := handleEvent decode marshalIndent st ev
    if st2.stopped then st2 else runLoop decode marshalIndent st2 rest

/-- Handling any event other than shutdown leaves the stopped flag as it
was. -/
theorem handleEvent_stopped (decode : List Nat → Except String GoValue)
    (marshalIndent : GoValue → Except String String)
    (st : LoopState) (ev : Event) (h : ev ≠ Event.shutdown) :
    (handleEvent decode marshalIndent st ev).stopped = st.stopped := by
  cases ev with
  | message m =>
    cases m with
    | none => rfl
    | some msg =>
      cases hd : decode msg.value with
      | error e => simp [handleEvent, hd]
      | ok data => simp [handleEvent, hd]
  | errorEv e => cases e <;> rfl
  | notification n => cases n <;> rfl
  | shutdown => exact absurd rfl h

/-- Claim C1: on a message whose decode fails, the loop logs the offset
and header lines, then the decode error at error severity, emits no
`printJSON` output for that message, and continues with the remaining
events instead of terminating. -/
theorem decode_failure_skips_print
    (decode : List Nat → Except String GoValue)
    (marshalIndent : GoValue → Except String String)
    (logs : List LogLine) (msg : ConsumerMessage) (e : String)
    (rest : List Event)
    (h : decode msg.value = Except.error e) :
    runLoop decode marshalIndent ⟨logs, false⟩ (Event.message (some msg) :: rest)
      = runLoop decode marshalIndent
          ⟨logs ++ messagePrelude msg
            ++ [(Level.error, "Error decoding message: " ++ e)], false⟩
          rest := by
  simp [runLoop, handleEvent, h]

/-- Witness for `decode_failure_skips_print`: a failing decoder on a
message with offset 7 and one header yields exactly the offset line, the
headers marker, the header line and the decode-error line, and the loop
is still running. -/
theorem decode_failure_skips_print_witness :
    runLoop (fun _ => Except.error "boom") (fun _ => Except.ok "null")
        ⟨[], false⟩
        [Event.message (some ⟨7, [some ⟨[107], [118]⟩], [1]⟩)]
      = ⟨[(Level.info, "Offset: 7"), (Level.info, "Headers:"),
          (Level.info, "\tk: v"),
          (Level.error, "Error decoding message: boom")], false⟩ := by
  rw [decode_failure_skips_print (fun _ => Except.error "boom")
    (fun _ => Except.ok "null") [] ⟨7, [some ⟨[107], [118]⟩], [1]⟩ "boom" [] rfl]
  rfl

/-- Counterexample to claim C2 as stated: handling the shutdown event
emits zero log lines, not exactly one summary line (the summary call is
commented out in `Parser.Serve`). -/
theorem shutdown_summary_counterexample :
    ¬ (runLoop (fun _ => Except.ok GoValue.vnull) (fun _ => Except.ok "null")
        ⟨[], false⟩ [Event.shutdown]).logs.length = 1 := by
  decide

/-- Claim C2 (amended): sending one shutdown value makes the loop return
at once — the stopped flag is set, no log line (in particular no summary
line) is emitted by the shutdown handling, and no event after the
shutdown event is processed. -/
theorem shutdown_stops_loop
    (decode : List Nat → Except String GoValue)
    (marshalIndent : GoValue → Except String String)
    (logs : List LogLine) (rest : List Event) :
    runLoop decode marshalIndent ⟨logs, false⟩ (Event.shutdown :: rest)
      = ⟨logs, true⟩ := by
  simp [runLoop, handleEvent]

/-- Claim C3: a receive from a closed source channel has no effect on the
loop state; as long as no shutdown value arrives the loop never ends, no
matter how many closed-channel receives occur (so the closure of one —
or even every — source never by itself ends the loop, and the loop can
only end through shutdown); and after closed-channel receives the
remaining open sources are still serviced. -/
theorem closed_channel_handling
    (decode : List Nat → Except String GoValue)
    (marshalIndent : GoValue → Except String String) :
    (∀ st : LoopState,
        handleEvent decode marshalIndent st (Event.message none) = st
        ∧ handleEvent decode marshalIndent st (Event.errorEv none) = st
        ∧ handleEvent decode marshalIndent st (Event.notification none) = st)
    ∧ (∀ (logs : List LogLine) (evs : List Event), Event.shutdown ∉ evs →
        (runLoop decode marshalIndent ⟨logs, false⟩ evs).stopped = false)
    ∧ (∀ (logs : List LogLine) (evs : List Event),
        (runLoop decode marshalIndent ⟨logs, false⟩ evs).stopped = true →
        Event.shutdown ∈ evs)
    ∧ (∀ (logs : List LogLine) (e : String),
        runLoop decode marshalIndent ⟨logs, false⟩
            [Event.message none, Event.errorEv (some e), Event.notification none]
          = ⟨logs ++ [(Level.error, "Error: " ++ e)], false⟩) := by
  have hrun : ∀ (evs : List Event) (st : LoopState), st.stopped = false →
      Event.shutdown ∉ evs →
      (runLoop decode marshalIndent st evs).stopped = false := by
    intro evs
    induction evs with
    | nil => intro st hst _; exact hst
    | cons ev rest ih =>
      intro st hst hmem
      have hev : ev ≠ Event.shutdown := fun h => hmem (h ▸ List.mem_cons_self ev rest)
      have hrest : Event.shutdown ∉ rest := fun h => hmem (List.mem_cons_of_mem ev h)
      have h2 : (handleEvent decode marshalIndent st ev).stopped = false := by
        rw [handleEvent_stopped decode marshalIndent st ev hev]; exact hst
      rw [runLoop]
      simp only [h2, if_false]
      exact ih _ h2 hrest
  refine ⟨fun st => ⟨rfl, rfl, rfl⟩, ?_, ?_, ?_⟩
  · intro logs evs hmem
    exact hrun evs ⟨logs, false⟩ rfl hmem
  · intro logs evs hstop
    by_contra hmem
    rw [hrun evs ⟨logs, false⟩ rfl hmem] at hstop
    cases hstop
  · intro logs e
    simp [runLoop, handleEvent]

/-- Witness for `closed_channel_handling`: with all three sources closed
the loop is still running, and a consumer error arriving after two
closed-channel receives is still logged. -/
theorem closed_channel_handling_witness :
    (runLoop (fun _ => Except.ok GoValue.vnull) (fun _ => Except.ok "null")
        ⟨[], false⟩
        [Event.message none, Event.errorEv none, Event.notification none]).stopped
      = false
    ∧ runLoop (fun _ => Except.ok GoValue.vnull) (fun _ => Except.ok "null")
        ⟨[], false⟩
        [Event.message none, Event.errorEv (some "oops"), Event.notification none]
      = ⟨[(Level.error, "Error: oops")], false⟩ := by
  have h := closed_channel_handling (fun _ => Except.ok GoValue.vnull)
    (fun _ => Except.ok "null")
  refine ⟨h.2.1 [] [Event.message none, Event.errorEv none, Event.notification none]
    (by decide), ?_⟩
  have h4 := h.2.2.2 [] "oops"
  simpa using h4

/-- Claim C10: header logging emits exactly one line per non-nil header,
in arrival order, and skips nil entries without dereferencing them (the
function is total on any headers sequence containing nil entries). -/
theorem header_logging_skips_nil (hs : List (Option RecordHeader)) :
    headerLines hs = (hs.filterMap id).map headerLine := by
  induction hs with
  | nil => rfl
  | cons h rest ih =>
    cases h with
    | none => simpa [headerLines] using ih
    | some hd => simpa [headerLines] using ih

/-! ## Plugin resolver (`cmd/go-kafka-console-consumer/main.go`) -/

/-- The decoder instance `getDecoder` hands to the parser: one of the
three built-ins (the Avro one carrying an optional converter symbol) or a
decoder loaded from a plugin, over an abstract type `σ` of plugin
symbols. -/
inductive DecoderImpl (σ : Type) where
  | jsonDec : DecoderImpl σ
  | msgpackDec : DecoderImpl σ
  | avroDec (converter : Option σ) : DecoderImpl σ
  | pluginDec (sym : σ) : DecoderImpl σ

/-- Outcome of decoder resolution: a decoder, or process termination
(`log.Fatalf`, or the panic of a failed interface assertion). -/
inductive Resolution (σ : Type) where
  | ok (d : DecoderImpl σ) : Resolution σ
  | fatal (msg : String) : Resolution σ

/-- `getDecoder` from main.go, parameterised over `loadPlugin`
(`plugin.Open` + `Lookup`, keyed by path and symbol name) and the two
interface assertions. The second component records every plugin load
attempted, in order. -/
def getDecoder {σ : Type} (loadSym : String → String → Except String σ)
    (isConverter : σ → Bool) (isDecoder : σ → Bool)
    (msgType converterPath : String) :
    Resolution σ × List (String × String) :=
  if msgType = "json" then (Resolution.ok DecoderImpl.jsonDec, [])
  else if msgType = "msgpack" then (Resolution.ok DecoderImpl.msgpackDec, [])
  else if msgType = "avro" then
    if converterPath ≠ "" then
      match loadSym converterPath "Converter" with
      | Except.error e =>
          (Resolution.fatal ("Error loading avro converter: " ++ e),
            [(converterPath, "Converter")])
      | Except.ok sym =>
          if isConverter sym then
            (Resolution.ok (DecoderImpl.avroDec (some sym)),
              [(converterPath, "Converter")])
          else
            (Resolution.fatal "panic: interface conversion",
              [(converterPath, "Converter")])
    else (Resolution.ok (DecoderImpl.avroDec none), [])
  else
    match loadSym msgType "Decoder" with
    | Except.error e =>
        (Resolution.fatal ("Error loading " ++ msgType ++ " decoder: " ++ e),
          [(msgType, "Decoder")])
    | Except.ok sym =>
        if isDecoder sym then
          (Resolution.ok (DecoderImpl.pluginDec sym), [(msgType, "Decoder")])
        else
          (Resolution.fatal "panic: interface conversion", [(msgType, "Decoder")])

/-- What `main` reaches after decoder resolution: either the process
exited fatally, or the dispatch loop was started with the resolved
decoder (`getDecoder` runs at line 79, `parser.Serve` only at line 85). -/
inductive MainOutcome (σ : Type) where
  | exited (msg : String) : MainOutcome σ
  | served (d : DecoderImpl σ) : MainOutcome σ

/-- The startup order of `main` around decoder resolution: a fatal
resolution exits the process, otherwise the dispatch loop is started with
the resolved decoder. -/
def mainStartup {σ : Type} (loadSym : String → String → Except String σ)
    (isConverter : σ → Bool) (isDecoder : σ → Bool)
    (msgType converterPath : String) : MainOutcome σ × List (String × String) :=
  match getDecoder loadSym isConverter isDecoder msgType converterPath with
  | (Resolution.fatal e, loads) => (MainOutcome.exited e, loads)
  | (Resolution.ok d, loads) => (MainOutcome.served d, loads)

/-- Counterexample to claim C8 as stated: for the built-in identifier
`"avro"` with a converter path supplied, `getDecoder` does attempt an
external plugin load (of the Converter symbol), and when that load fails
it terminates the process instead of returning the built-in Avro
decoder. -/
theorem getDecoder_avro_converter_counterexample :
    getDecoder (σ := Unit) (fun _ _ => Except.error "plugin open failed")
        (fun _ => true) (fun _ => true) "avro" "conv.so"
      = (Resolution.fatal "Error loading avro converter: plugin open failed",
          [("conv.so", "Converter")])
    ∧ (getDecoder (σ := Unit) (fun _ _ => Except.error "plugin open failed")
        (fun _ => true) (fun _ => true) "avro" "conv.so").2 ≠ [] := by
  constructor
  · rfl
  · intro h
    simp [getDecoder] at h

/-- Claim C8 (amended): `"json"` and `"msgpack"` always resolve to their
built-in decoders with no plugin load, `"avro"` resolves to the built-in
Avro decoder with no load when no converter path is supplied, while a
non-empty converter path makes it attempt exactly one load of that
path's Converter symbol (still yielding the built-in Avro variant on
success); every other identifier is treated as a plugin locator with
exactly one load of its Decoder symbol; and a fatal resolution exits the
process before the dispatch loop is started. -/
theorem getDecoder_resolution {σ : Type}
    (loadSym : String → String → Except String σ)
    (isConverter : σ → Bool) (isDecoder : σ → Bool) (cp : String) :
    (∀ p : String, getDecoder loadSym isConverter isDecoder "json" p
        = (Resolution.ok DecoderImpl.jsonDec, []))
    ∧ (∀ p : String, getDecoder loadSym isConverter isDecoder "msgpack" p
        = (Resolution.ok DecoderImpl.msgpackDec, []))
    ∧ getDecoder loadSym isConverter isDecoder "avro" ""
        = (Resolution.ok (DecoderImpl.avroDec none), [])
    ∧ (cp ≠ "" →
        (getDecoder loadSym isConverter isDecoder "avro" cp).2
            = [(cp, "Converter")]
        ∧ (∀ sym : σ, loadSym cp "Converter" = Except.ok sym →
            isConverter sym = true →
            (getDecoder loadSym isConverter isDecoder "avro" cp).1
              = Resolution.ok (DecoderImpl.avroDec (some sym))))
    ∧ (∀ t : String, t ≠ "json" → t ≠ "msgpack" → t ≠ "avro" →
        (getDecoder loadSym isConverter isDecoder t cp).2 = [(t, "Decoder")])
    ∧ (∀ (t p e : String),
        (getDecoder loadSym isConverter isDecoder t p).1 = Resolution.fatal e →
        (mainStartup loadSym isConverter isDecoder t p).1 = MainOutcome.exited e) := by
  refine ⟨fun p => rfl, fun p => rfl, rfl, ?_, ?_, ?_⟩
  · intro hcp
    constructor
    · cases hload : loadSym cp "Converter" with
      | error e => simp [getDecoder, hcp, hload]
      | ok sym =>
        by_cases hconv : isConverter sym
        · simp [getDecoder, hcp, hload, hconv]
        · simp [getDecoder, hcp, hload, hconv]
    · intro sym hload hconv
      simp [getDecoder, hcp, hload, hconv]
  · intro t h1 h2 h3
    cases hload : loadSym t "Decoder" with
    | error e => simp [getDecoder, h1, h2, h3, hload]
    | ok sym =>
      by_cases hdec : isDecoder sym
      · simp [getDecoder, h1, h2, h3, hload, hdec]
      · simp [getDecoder, h1, h2, h3, hload, hdec]
  · intro t p e hfatal
    unfold mainStartup
    cases hget : getDecoder loadSym isConverter isDecoder t p with
    | mk res loads =>
      rw [hget] at hfatal
      simp only at hfatal
      subst hfatal
      rfl

/-- Witness for `getDecoder_resolution` with a concrete loader over
`σ := Unit`: the three built-ins resolve without loading, a plugin
identifier records exactly one Decoder load, and a failing resolution
exits before the loop starts. -/
theorem getDecoder_resolution_witness :
    getDecoder (σ := Unit) (fun _ _ => Except.error "open failed")
        (fun _ => true) (fun _ => true) "json" ""
      = (Resolution.ok DecoderImpl.jsonDec, [])
    ∧ getDecoder (σ := Unit) (fun _ _ => Except.error "open failed")
        (fun _ => true) (fun _ => true) "avro" ""
      = (Resolution.ok (DecoderImpl.avroDec none), [])
    ∧ (getDecoder (σ := Unit) (fun _ _ => Except.error "open failed")
        (fun _ => true) (fun _ => true) "my.so" "").2 = [("my.so", "Decoder")]
    ∧ (mainStartup (σ := Unit) (fun _ _ => Except.error "open failed")
        (fun _ => true) (fun _ => true) "my.so" "").1
      = MainOutcome.exited "Error loading my.so decoder: open failed" := by
  have h := getDecoder_resolution (σ := Unit) (fun _ _ => Except.error "open failed")
    (fun _ => true) (fun _ => true) ""
  refine ⟨h.1 "", h.2.2.1, h.2.2.2.2.1 "my.so" (by decide) (by decide) (by decide), ?_⟩
  exact h.2.2.2.2.2 "my.so" "" "Error loading my.so decoder: open failed" rfl

end KafkaConsumer
